import Mathlib

/-!
Verification of the gin-cache response-caching middleware (src/cache.go).

The middleware is embedded shallowly as a pure function from a per-request
environment to the final writer state together with a trace of observable
effects (pool operations, store operations, logging, invoking the downstream
handler, aborting the pipeline).  Bytes are `List Nat`, headers are an
ordered association list from header name to the ordered list of its values
(mirroring `http.Header`).
-/

namespace GinCache

/-- Byte sequences (`[]byte` / `bytes.Buffer` contents). -/
abbrev Bytes := List Nat

/-- Model of `http.Header`: ordered mapping from header name to its ordered values.
Keys are assumed already canonicalized (as they are inside gin). -/
abbrev HeaderMap := List (String × List String)

/-- Embeds `http.Header.Set k v`: replace the values of `k` by the single value `v`
(insert at the end when absent). -/
def hSet (hs : HeaderMap) (k v : String) : HeaderMap :=
  match hs with
  | [] => [(k, [v])]
  | (k', vs) :: rest => if k' = k then (k, [v]) :: rest else (k', vs) :: hSet rest k v

/-- Embeds `http.Header.Add k v`: append `v` to the values of `k`. -/
def hAdd (hs : HeaderMap) (k v : String) : HeaderMap :=
  match hs with
  | [] => [(k, [v])]
  | (k', vs) :: rest => if k' = k then (k', vs ++ [v]) :: rest else (k', vs) :: hAdd rest k v

/-- Values stored under key `k` (empty list when absent). -/
def hGet (hs : HeaderMap) (k : String) : List String :=
  match hs with
  | [] => []
  | (k', vs) :: rest => if k' = k then vs else hGet rest k

/-- The underlying `gin.ResponseWriter` (the real sink towards the client).
`writeScript` is the scripted outcome of successive `Write`/`WriteString`
calls: each entry is the `(n, err)` the sink reports for one call; when the
script is exhausted the sink reports full success.  The bytes handed to the
sink are recorded in `written` in every case. -/
structure GinWriter where
  status : Nat
  header : HeaderMap
  written : Bytes
  writeScript : List (Nat × Option String)
  deriving DecidableEq, Repr

/-- One `Write`/`WriteString` call on the underlying sink. -/
def GinWriter.write (w : GinWriter) (b : Bytes) : GinWriter × Nat × Option String :=
  match w.writeScript with
  | [] => ({ w with written := w.written ++ b }, b.length, none)
  | r :: rest => ({ w with written := w.written ++ b, writeScript := rest }, r.1, r.2)

/-- Embeds `WriteHeader code`: records the status code. -/
def GinWriter.writeHeader (w : GinWriter) (code : Nat) : GinWriter :=
  { w with status := code }

/-- Embeds `responseCacheWriter` (src/cache.go:154): wraps the underlying
`gin.ResponseWriter` and additionally accumulates the body bytes. -/
structure responseCacheWriter where
  underlying : GinWriter
  body : Bytes
  deriving DecidableEq, Repr

/-- Embeds `responseCacheWriter.Write` (src/cache.go:159): append to the internal
buffer, then forward to the wrapped sink, returning the sink's result. -/
def responseCacheWriter.write (w : responseCacheWriter) (b : Bytes) :
    responseCacheWriter × Nat × Option String :=
  let body' := w.body ++ b
  let (u, n, e) := w.underlying.write b
  ({ underlying := u, body := body' }, n, e)

/-- Embeds `responseCacheWriter.WriteString` (src/cache.go:164): same shape as
`Write`, with the string's bytes. -/
def responseCacheWriter.writeString (w : responseCacheWriter) (s : Bytes) :
    responseCacheWriter × Nat × Option String :=
  let body' := w.body ++ s
  let (u, n, e) := w.underlying.write s
  ({ underlying := u, body := body' }, n, e)

/-- Embeds `responseCacheWriter.reset` (src/cache.go:169): clear buffer, rebind sink. -/
def responseCacheWriter.reset (w : GinWriter) : responseCacheWriter :=
  { underlying := w, body := [] }

/-- Embeds `Status()`: delegates to the embedded `gin.ResponseWriter`. -/
def responseCacheWriter.statusOf (w : responseCacheWriter) : Nat :=
  w.underlying.status

/-- Embeds `Header()`: delegates to the embedded `gin.ResponseWriter`. -/
def responseCacheWriter.headerOf (w : responseCacheWriter) : HeaderMap :=
  w.underlying.header

/-- Embeds `responseCache` (src/cache.go:132): the snapshot stored in the cache. -/
structure responseCache where
  Status : Nat
  Header : HeaderMap
  Data : Bytes
  deriving DecidableEq, Repr

/-- Embeds `responseCache.reset` (src/cache.go:138): truncate the body and replace
the header map with an empty one.  `Status` is not touched. -/
def responseCache.reset (c : responseCache) : responseCache :=
  { c with Data := [], Header := [] }

/-- Embeds `responseCache.fill` (src/cache.go:143): copy status, body bytes and the
header entries out of a completed `responseCacheWriter`. -/
def responseCache.fill (w : responseCacheWriter) : responseCache :=
  { Status := w.statusOf, Data := w.body, Header := w.headerOf }

/-- State of `c.Writer` as the middleware sees it: either the raw sink, or the
capture wrapper installed on the miss path. -/
inductive CWriter where
  | raw (w : GinWriter)
  | wrapped (w : responseCacheWriter)
  deriving DecidableEq, Repr

/-- The underlying real sink of a `CWriter`. -/
def CWriter.sink : CWriter → GinWriter
  | .raw w => w
  | .wrapped w => w.underlying

/-- Embeds `c.Writer.Write` (the wrapper forwards, the raw writer writes directly). -/
def CWriter.write : CWriter → Bytes → CWriter × Nat × Option String
  | .raw w, b => let (w', n, e) := w.write b; (.raw w', n, e)
  | .wrapped w, b => let (w', n, e) := w.write b; (.wrapped w', n, e)

/-- Embeds `c.Writer.WriteString`. -/
def CWriter.writeString : CWriter → Bytes → CWriter × Nat × Option String
  | .raw w, b => let (w', n, e) := w.write b; (.raw w', n, e)
  | .wrapped w, b => let (w', n, e) := w.writeString b; (.wrapped w', n, e)

/-- Embeds `c.Writer.WriteHeader` (the wrapper has no override: it reaches the
embedded `gin.ResponseWriter`). -/
def CWriter.writeHeader : CWriter → Nat → CWriter
  | .raw w, s => .raw (w.writeHeader s)
  | .wrapped w, s => .wrapped { w with underlying := w.underlying.writeHeader s }

/-- Embeds `c.Writer.Header().Set k v` (mutates the real sink's header map). -/
def CWriter.headerSet : CWriter → String → String → CWriter
  | .raw w, k, v => .raw { w with header := hSet w.header k v }
  | .wrapped w, k, v =>
      .wrapped { w with underlying := { w.underlying with header := hSet w.underlying.header k v } }

/-- Embeds `c.Writer.Header().Add k v`. -/
def CWriter.headerAdd : CWriter → String → String → CWriter
  | .raw w, k, v => .raw { w with header := hAdd w.header k v }
  | .wrapped w, k, v =>
      .wrapped { w with underlying := { w.underlying with header := hAdd w.underlying.header k v } }

/-- Observable effects of one middleware invocation, in order. -/
inductive Effect where
  /-- Effect: `cacheHelper.getResponseCache` took a snapshot from the pool. -/
  | poolGet
  /-- Effect: `cacheHelper.putResponseCache` returned a snapshot to the pool. -/
  | poolPut
  /-- Effect: `respCache := new responseCache` (src/cache.go:75): fresh allocation. -/
  | freshAlloc
  /-- Effect: `options.CacheStore.Get cacheKey` was called. -/
  | storeGet (key : String)
  /-- Effect: `options.CacheStore.Set key val ttl` was called. -/
  | storeSet (key : String) (val : responseCache) (ttl : Nat)
  /-- Effect: `options.Logger.Printf fmt ...` was called. -/
  | log (fmt : String)
  /-- Effect: `c.Next()`, the downstream handler was invoked. -/
  | next
  /-- Effect: `cacheHelper.sfGroup.Do cacheKey ...` was entered. -/
  | sfDo (key : String)
  /-- the forget-timer goroutine was spawned (src/cache.go:85). -/
  | forgetSpawn (key : String) (after : Nat)
  /-- Effect: `c.Abort()` was called. -/
  | abort
  deriving DecidableEq, Repr

/-- Occurrences of an effect in a trace. -/
def countE (t : List Effect) (e : Effect) : Nat :=
  (t.filter (fun x => x = e)).length

/-- Number of `storeSet` effects in a trace (any key/value/ttl). -/
def countSet (t : List Effect) : Nat :=
  (t.filter (fun x => match x with | .storeSet _ _ _ => true | _ => false)).length

/-- Number of snapshot acquisitions (pool hits plus fresh allocations). -/
def countAcquire (t : List Effect) : Nat :=
  (t.filter (fun x => match x with | .poolGet => true | .freshAlloc => true | _ => false)).length

/-- Embeds `Options` (src/cache.go:14).  The store is abstracted into the request
environment; the logger into the flag `hasLogger` (nil logger = false). -/
structure Options where
  cacheDuration : Nat
  disableSingleFlight : Bool
  singleflightForgetTime : Nat
  hasLogger : Bool
  deriving DecidableEq, Repr

/-- Outcome of `options.CacheStore.Get cacheKey &respCache`: populate the
snapshot (`err == nil`), the distinguished `persist.ErrCacheMiss`, or any
other error. -/
inductive GetResult where
  | hit (rc : responseCache)
  | miss
  | err
  deriving DecidableEq, Repr

/-- One step of the downstream handler writing through `c.Writer`: setting
the status, adding a header value (via `c.Writer.Header().Add`, which
reaches the real sink's map directly), or writing body bytes. -/
inductive HandlerOp where
  | writeHeader (code : Nat)
  | addHeader (k v : String)
  | write (b : Bytes)
  | writeString (s : Bytes)
  deriving DecidableEq, Repr

/-- Run the downstream handler, given as a list of write operations, against
a `c.Writer`. -/
def runHandler (ops : List HandlerOp) (w : CWriter) : CWriter :=
  ops.foldl
    (fun w op =>
      match op with
      | .writeHeader code => w.writeHeader code
      | .addHeader k v => w.headerAdd k v
      | .write b => (w.write b).1
      | .writeString s => (w.writeString s).1)
    w

/-- The downstream handler's action on the capture wrapper, at the
`responseCacheWriter` level (used to reason about `runHandler` on a
wrapped writer). -/
def runHandlerW (ops : List HandlerOp) (w : responseCacheWriter) : responseCacheWriter :=
  ops.foldl
    (fun w op =>
      match op with
      | .writeHeader code => { w with underlying := w.underlying.writeHeader code }
      | .addHeader k v =>
          { w with underlying := { w.underlying with header := hAdd w.underlying.header k v } }
      | .write b => (w.write b).1
      | .writeString s => (w.writeString s).1)
    w

/-- The role this caller played inside `sfGroup.Do`.
Modelled from the spec: `singleflight.Group` is an external dependency whose
source is not part of this repository; per §4.4 a caller is either the
leader (its producer runs, `shared` is false) or a follower (the producer
does not run on its behalf; it receives the leader's `responseCacheWriter`
and `shared` is true). -/
inductive Role where
  | leader
  | follower (leaderW : responseCacheWriter)
  deriving DecidableEq, Repr

/-- The per-request environment: everything the middleware body consumes
from the outside world. -/
structure ReqEnv where
  /-- result of the user key function `handler(c)` -/
  cacheKey : String
  needCache : Bool
  /-- outcome of the store lookup -/
  getResult : GetResult
  /-- error returned by `CacheStore.Set` -/
  setError : Option String
  /-- the downstream handler's writes -/
  handlerOps : List HandlerOp
  /-- this caller's role inside the coalescing group (used only when
  coalescing is enabled and the write path runs) -/
  role : Role
  deriving Repr

/-- The header-replay loop of `respondWithCache` (src/cache.go:214-218):
for every stored name and every one of its values, in order, call
`c.Writer.Header().Set name value`. -/
def applyHeaderSets (w : CWriter) (hs : HeaderMap) : CWriter :=
  hs.foldl (fun w kv => kv.2.foldl (fun w v => w.headerSet kv.1 v) w) w

/-- Embeds `cacheHelper.respondWithCache` (src/cache.go:209): write the status,
then `Header().Set` each stored value in turn, then write the body (logging
a write failure when a logger is present), then `c.Abort()`. -/
def respondWithCache (hasLogger : Bool) (w : CWriter) (rc : responseCache) :
    CWriter × List Effect :=
  let w1 := w.writeHeader rc.Status
  let w2 := applyHeaderSets w1 rc.Header
  let (w3, _, e) := w2.write rc.Data
  let logs : List Effect :=
    match e with
    | some _ => if hasLogger then [.log "write response error: %v"] else []
    | none => []
  (w3, logs ++ [.abort])

/-- Logging after the store lookup (src/cache.go:63-67): log the error
unless it is `persist.ErrCacheMiss`, and only when a logger is configured. -/
def getLogEffs (hasLogger : Bool) : GetResult → List Effect
  | .err => if hasLogger then [.log "get cache: %v"] else []
  | _ => []

/-- Logging after `CacheStore.Set` (src/cache.go:104-108). -/
def setLogEffs (hasLogger : Bool) : Option String → List Effect
  | some _ => if hasLogger then [.log "set cache error: %v"] else []
  | none => []

/-- The write path of the middleware (src/cache.go:77-102), after
`c.Writer` has been swapped for `cacheWriter` and the fresh write-path
snapshot allocated.  Returns the final `c.Writer`, the
`responseCacheWriter` local variable as it stands after the block (the
one `respCache.fill` reads), and the effects of the block. -/
def missWritePath (opts : Options) (env : ReqEnv) (cacheWriter : responseCacheWriter) :
    CWriter × responseCacheWriter × List Effect :=
  if opts.disableSingleFlight then
    let w := runHandler env.handlerOps (.wrapped cacheWriter)
    let cw := match w with | .wrapped cw => cw | .raw s => responseCacheWriter.reset s
    (w, cw, [.next])
  else
    match env.role with
    | .leader =>
        -- this caller's producer runs: spawn the forget timer, run the
        -- downstream handler on the capture wrapper; shared = false, no replay
        let spawn : List Effect :=
          if opts.singleflightForgetTime > 0 then
            [.forgetSpawn env.cacheKey opts.singleflightForgetTime]
          else []
        let w := runHandler env.handlerOps (.wrapped cacheWriter)
        let cw := match w with | .wrapped cw => cw | .raw s => responseCacheWriter.reset s
        (w, cw, [.sfDo env.cacheKey] ++ spawn ++ [.next])
    | .follower lw =>
        -- shared = true: the local `cacheWriter` variable is rebound to the
        -- leader's writer (src/cache.go:96) and the leader's capture is
        -- replayed to this caller's own `c.Writer`
        let rc := responseCache.fill lw
        let (w, effs) := respondWithCache opts.hasLogger (.wrapped cacheWriter) rc
        (w, lw, [.sfDo env.cacheKey] ++ effs)

/-- The body of the closure returned by `Cache` (src/cache.go:45-109),
as a pure function from the request environment and the incoming
`c.Writer` sink to the final `c.Writer` and the effect trace. -/
def cacheRun (opts : Options) (env : ReqEnv) (sink : GinWriter) :
    CWriter × List Effect :=
  if !env.needCache then
    (runHandler env.handlerOps (.raw sink), [.next])
  else
    -- read cache first: pooled snapshot, store lookup
    let readEffs : List Effect := [.poolGet, .storeGet env.cacheKey]
    match env.getResult with
    | .hit rc =>
        -- respondWithCache, return; the deferred putResponseCache fires last
        let (w, effs) := respondWithCache opts.hasLogger (.raw sink) rc
        (w, readEffs ++ effs ++ [.poolPut])
    | g =>
        -- swap in the capture writer, allocate the write-path snapshot,
        -- run the write path, fill the snapshot, store it; the deferred
        -- putResponseCache fires last
        let cacheWriter := responseCacheWriter.reset sink
        let wp := missWritePath opts env cacheWriter
        let rc := responseCache.fill wp.2.1
        (wp.1,
          readEffs ++ getLogEffs opts.hasLogger g ++ [.freshAlloc] ++ wp.2.2
            ++ [.storeSet env.cacheKey rc opts.cacheDuration]
            ++ setLogEffs opts.hasLogger env.setError ++ [.poolPut])

/-! ## Coalescing group (spec-modelled)

Modelled from the spec: the CoalescingGroup (`golang.org/x/sync/singleflight.Group`,
used at src/cache.go:83-94 via `Do` and `Forget`) is an external dependency whose
source is not in this repository.  Per §4.4 it is a registry from key to the
in-flight execution slot: an arriving caller joins the slot when one exists
(follower), otherwise starts a new execution and registers the slot (leader);
`Forget` removes the slot without cancelling the running execution; when an
execution finishes its slot is removed and every caller registered to it
receives the same result.  We model the history for a single key as a list of
events processed in order. -/

/-- Events at one key of the coalescing group, in wall-clock order. -/
inductive SfEvent where
  /-- caller `i` invokes `Do` -/
  | arrive (i : Nat)
  /-- the forget timer fires: the slot is removed from the registry -/
  | forget
  /-- execution `e` completes and publishes its result to its callers -/
  | finish (e : Nat)
  deriving DecidableEq, Repr

/-- State of the group at one key.  `nextExec` counts executions started so
far (each started execution is one invocation of the producer, i.e. of the
downstream handler); `slot` is the registered in-flight execution, when any;
`assign` records which execution each caller was attached to — all callers
with the same execution id receive the identical result value. -/
structure SfState where
  nextExec : Nat
  slot : Option Nat
  assign : List (Nat × Nat)
  deriving DecidableEq, Repr

/-- Modelled from the spec (§4.4): one event of the group at one key. -/
def sfStep (s : SfState) (ev : SfEvent) : SfState :=
  match ev with
  | .arrive i =>
      match s.slot with
      | some e => { s with assign := s.assign ++ [(i, e)] }
      | none =>
          { nextExec := s.nextExec + 1
            slot := some s.nextExec
            assign := s.assign ++ [(i, s.nextExec)] }
  | .forget => { s with slot := none }
  | .finish e => if s.slot = some e then { s with slot := none } else s

/-- Run the group from the empty state. -/
def sfRun (evs : List SfEvent) : SfState :=
  evs.foldl sfStep ⟨0, none, []⟩

/-- A sequence of calls through the capture wrapper; an entry `(true, b)`
goes through `WriteString`, `(false, b)` through `Write`. -/
def rcwWriteAll (w : responseCacheWriter) (chunks : List (Bool × Bytes)) : responseCacheWriter :=
  chunks.foldl (fun w c => if c.1 then (w.writeString c.2).1 else (w.write c.2).1) w

/-- Pure form of the header-replay loop: the header map after all the
`Set` calls of `respondWithCache`. -/
def setAllHeaders (h : HeaderMap) (hs : HeaderMap) : HeaderMap :=
  hs.foldl (fun h kv => kv.2.foldl (fun h v => hSet h kv.1 v) h) h

/-! ## Concrete scenario used to exhibit divergences

Coalescing enabled, no forget timer, no logger; the downstream handler sets
status 200, adds the header `H` twice (values `a` then `b`) and writes the
body `[1, 2, 3]`.  Both callers use key `k`, miss the cache, and the store
accepts the write. -/

/-- Example options: coalescing enabled, no forget time, no logger. -/
def exOpts : Options :=
  { cacheDuration := 60, disableSingleFlight := false,
    singleflightForgetTime := 0, hasLogger := false }

/-- Example pristine client sink. -/
def exSink : GinWriter :=
  { status := 0, header := [], written := [], writeScript := [] }

/-- Example downstream handler: one header with two values, then a body. -/
def exOps : List HandlerOp :=
  [.writeHeader 200, .addHeader "H" "a", .addHeader "H" "b", .write [1, 2, 3]]

/-- Example environment of the leader caller. -/
def exLeaderEnv : ReqEnv :=
  { cacheKey := "k", needCache := true, getResult := .miss, setError := none,
    handlerOps := exOps, role := .leader }

/-- The leader's middleware run. -/
def exLeaderOut : CWriter × List Effect := cacheRun exOpts exLeaderEnv exSink

/-- The leader's `responseCacheWriter` after the handler completed (what
`sfGroup.Do` hands to every coalesced caller). -/
def exLw : responseCacheWriter := runHandlerW exOps (responseCacheWriter.reset exSink)

/-- Example environment of a coalesced follower of the same key. -/
def exFollowerEnv : ReqEnv := { exLeaderEnv with role := .follower exLw }

/-- The follower's middleware run (its own pristine sink). -/
def exFollowerOut : CWriter × List Effect := cacheRun exOpts exFollowerEnv exSink

/-- Example stored snapshot with a multi-valued header. -/
def exStored : responseCache :=
  { Status := 201, Header := [("H", ["a", "b"])], Data := [9, 9] }

/-- Example environment whose lookup hits `exStored`. -/
def exHitEnv : ReqEnv := { exLeaderEnv with getResult := .hit exStored }

/-- Example sink whose first write fails (client gone). -/
def exFailSink : GinWriter := { exSink with writeScript := [(0, some "broken pipe")] }

/-- Example options with a positive forget duration. -/
def exOptsForget : Options := { exOpts with singleflightForgetTime := 5 }

/-! ## Helper lemmas -/

theorem GinWriter.write_fst_written (w : GinWriter) (b : Bytes) :
    (w.write b).1.written = w.written ++ b := by
  cases h : w.writeScript <;> simp [GinWriter.write, h]

theorem GinWriter.write_fst_status (w : GinWriter) (b : Bytes) :
    (w.write b).1.status = w.status := by
  cases h : w.writeScript <;> simp [GinWriter.write, h]

theorem GinWriter.write_fst_header (w : GinWriter) (b : Bytes) :
    (w.write b).1.header = w.header := by
  cases h : w.writeScript <;> simp [GinWriter.write, h]

theorem responseCacheWriter.write_fst (w : responseCacheWriter) (b : Bytes) :
    (w.write b).1 = { underlying := (w.underlying.write b).1, body := w.body ++ b } := by
  simp [responseCacheWriter.write]

theorem responseCacheWriter.writeString_fst (w : responseCacheWriter) (b : Bytes) :
    (w.writeString b).1 = { underlying := (w.underlying.write b).1, body := w.body ++ b } := by
  simp [responseCacheWriter.writeString]

theorem countE_append (a b : List Effect) (e : Effect) :
    countE (a ++ b) e = countE a e + countE b e := by
  simp [countE, List.filter_append]

theorem countSet_append (a b : List Effect) :
    countSet (a ++ b) = countSet a + countSet b := by
  simp [countSet, List.filter_append]

theorem countAcquire_append (a b : List Effect) :
    countAcquire (a ++ b) = countAcquire a + countAcquire b := by
  simp [countAcquire, List.filter_append]

/-- Running the handler on a wrapped writer stays wrapped and agrees with
the `responseCacheWriter`-level runner. -/
theorem runHandler_wrapped (ops : List HandlerOp) (cw : responseCacheWriter) :
    runHandler ops (.wrapped cw) = .wrapped (runHandlerW ops cw) := by
  induction ops generalizing cw with
  | nil => rfl
  | cons op rest ih =>
      cases op <;>
        simpa [runHandler, runHandlerW, CWriter.write, CWriter.writeString,
          CWriter.writeHeader, CWriter.headerAdd] using ih _

/-- Dual-write invariant of the capture wrapper: the handler appends the
same byte sequence to the internal buffer and to the real sink. -/
theorem runHandlerW_dual (ops : List HandlerOp) (cw : responseCacheWriter) :
    ∃ d : Bytes, (runHandlerW ops cw).body = cw.body ++ d ∧
      (runHandlerW ops cw).underlying.written = cw.underlying.written ++ d := by
  induction ops generalizing cw with
  | nil => exact ⟨[], by simp [runHandlerW]⟩
  | cons op rest ih =>
      cases op with
      | writeHeader code =>
          obtain ⟨d, hb, hw⟩ := ih { cw with underlying := cw.underlying.writeHeader code }
          exact ⟨d, by simpa [runHandlerW, GinWriter.writeHeader] using hb,
            by simpa [runHandlerW, GinWriter.writeHeader] using hw⟩
      | addHeader k v =>
          obtain ⟨d, hb, hw⟩ :=
            ih { cw with underlying := { cw.underlying with header := hAdd cw.underlying.header k v } }
          exact ⟨d, by simpa [runHandlerW] using hb, by simpa [runHandlerW] using hw⟩
      | write b =>
          obtain ⟨d, hb, hw⟩ := ih (cw.write b).1
          refine ⟨b ++ d, ?_, ?_⟩
          · rw [show runHandlerW (HandlerOp.write b :: rest) cw = runHandlerW rest (cw.write b).1 from rfl,
              hb, responseCacheWriter.write_fst]
            simp
          · rw [show runHandlerW (HandlerOp.write b :: rest) cw = runHandlerW rest (cw.write b).1 from rfl,
              hw, responseCacheWriter.write_fst]
            simp [GinWriter.write_fst_written]
      | writeString s =>
          obtain ⟨d, hb, hw⟩ := ih (cw.writeString s).1
          refine ⟨s ++ d, ?_, ?_⟩
          · rw [show runHandlerW (HandlerOp.writeString s :: rest) cw = runHandlerW rest (cw.writeString s).1 from rfl,
              hb, responseCacheWriter.writeString_fst]
            simp
          · rw [show runHandlerW (HandlerOp.writeString s :: rest) cw = runHandlerW rest (cw.writeString s).1 from rfl,
              hw, responseCacheWriter.writeString_fst]
            simp [GinWriter.write_fst_written]

theorem hGet_hSet_self (h : HeaderMap) (k v : String) : hGet (hSet h k v) k = [v] := by
  induction h with
  | nil => simp [hSet, hGet]
  | cons kv rest ih =>
      by_cases hk : kv.1 = k
      · simp [hSet, hGet, hk]
      · simp [hSet, hGet, hk, ih]

theorem hGet_hSet_ne (h : HeaderMap) (k k' v : String) (hne : k' ≠ k) :
    hGet (hSet h k' v) k = hGet h k := by
  have hne2 : ¬(k = k') := fun hh => hne hh.symm
  induction h with
  | nil => simp [hSet, hGet, hne]
  | cons kv rest ih =>
      by_cases hk : kv.1 = k'
      · simp [hSet, hGet, hk, hne, hne2]
      · by_cases hk2 : kv.1 = k
        · simp [hSet, hGet, hk, hk2, hne2]
        · simp [hSet, hGet, hk, hk2, ih]

theorem hGet_foldl_hSet_self (vs : List String) (h : HeaderMap) (k v : String)
    (hlast : vs.getLast? = some v) :
    hGet (vs.foldl (fun h v => hSet h k v) h) k = [v] := by
  induction vs generalizing h with
  | nil => simp at hlast
  | cons x rest ih =>
      cases rest with
      | nil =>
          simp at hlast
          subst hlast
          simpa using hGet_hSet_self h k x
      | cons y rest' =>
          rw [List.getLast?_cons_cons] at hlast
          simpa using ih (hSet h k x) hlast

theorem hGet_foldl_hSet_ne (vs : List String) (h : HeaderMap) (k k' : String)
    (hne : k' ≠ k) :
    hGet (vs.foldl (fun h v => hSet h k' v) h) k = hGet h k := by
  induction vs generalizing h with
  | nil => rfl
  | cons x rest ih =>
      simpa [hGet_hSet_ne h k k' x hne] using ih (hSet h k' x)

theorem hGet_setAllHeaders_notmem (hs : HeaderMap) (h : HeaderMap) (k : String)
    (hnm : k ∉ hs.map Prod.fst) :
    hGet (setAllHeaders h hs) k = hGet h k := by
  induction hs generalizing h with
  | nil => rfl
  | cons kv rest ih =>
      rw [List.map_cons] at hnm
      have h1 : k ≠ kv.1 := fun hh => hnm (by rw [hh]; exact List.mem_cons_self _ _)
      have h2 : k ∉ rest.map Prod.fst := fun hh => hnm (List.mem_cons_of_mem _ hh)
      have hfold : hGet (kv.2.foldl (fun h v => hSet h kv.1 v) h) k = hGet h k :=
        hGet_foldl_hSet_ne kv.2 h k kv.1 (fun hh => h1 hh.symm)
      calc hGet (setAllHeaders h (kv :: rest)) k
          = hGet (setAllHeaders (kv.2.foldl (fun h v => hSet h kv.1 v) h) rest) k := rfl
        _ = hGet (kv.2.foldl (fun h v => hSet h kv.1 v) h) k := ih _ h2
        _ = hGet h k := hfold

/-- After the replay loop, a stored header name carries exactly its last
stored value (assuming the snapshot's header names are distinct, as they
are for a Go map). -/
theorem hGet_setAllHeaders_last (hs : HeaderMap) (h : HeaderMap) (k : String)
    (vs : List String) (v : String)
    (hmem : (k, vs) ∈ hs) (hnd : (hs.map Prod.fst).Nodup)
    (hlast : vs.getLast? = some v) :
    hGet (setAllHeaders h hs) k = [v] := by
  induction hs generalizing h with
  | nil => simp at hmem
  | cons kv rest ih =>
      rcases List.mem_cons.mp hmem with hhd | htl
      · subst hhd
        rw [List.map_cons] at hnd
        have hnd' := List.nodup_cons.mp hnd
        have hknm : k ∉ rest.map Prod.fst := by simpa using hnd'.1
        have h1 : hGet (vs.foldl (fun h v => hSet h k v) h) k = [v] :=
          hGet_foldl_hSet_self vs h k v hlast
        calc hGet (setAllHeaders h ((k, vs) :: rest)) k
            = hGet (setAllHeaders (vs.foldl (fun h v => hSet h k v) h) rest) k := rfl
          _ = hGet (vs.foldl (fun h v => hSet h k v) h) k :=
              hGet_setAllHeaders_notmem rest _ k hknm
          _ = [v] := h1
      · have hnd' : (rest.map Prod.fst).Nodup := by
          rw [List.map_cons] at hnd
          exact (List.nodup_cons.mp hnd).2
        exact ih _ htl hnd'

theorem CWriter.headerSet_sink (w : CWriter) (k v : String) :
    (w.headerSet k v).sink = { w.sink with header := hSet w.sink.header k v } := by
  cases w <;> rfl

theorem applyHeaderSets_sink (hs : HeaderMap) (w : CWriter) :
    (applyHeaderSets w hs).sink = { w.sink with header := setAllHeaders w.sink.header hs } := by
  induction hs generalizing w with
  | nil => simp [applyHeaderSets, setAllHeaders]
  | cons kv rest ih =>
      have inner : ∀ (vs : List String) (w : CWriter) (k : String),
          (vs.foldl (fun w v => w.headerSet k v) w).sink =
            { w.sink with header := vs.foldl (fun h v => hSet h k v) w.sink.header } := by
        intro vs
        induction vs with
        | nil => intro w k; simp
        | cons x r ihv =>
            intro w k
            rw [List.foldl_cons, List.foldl_cons, ihv (w.headerSet k x) k,
              CWriter.headerSet_sink]
      calc (applyHeaderSets w (kv :: rest)).sink
          = (applyHeaderSets (kv.2.foldl (fun w v => w.headerSet kv.1 v) w) rest).sink := rfl
        _ = _ := by
            rw [ih, inner kv.2 w kv.1]
            rfl

theorem CWriter.write_fst_sink (w : CWriter) (b : Bytes) :
    (w.write b).1.sink = (w.sink.write b).1 := by
  cases w <;> simp [CWriter.write, CWriter.sink, responseCacheWriter.write]

theorem CWriter.writeHeader_sink (w : CWriter) (code : Nat) :
    (w.writeHeader code).sink = w.sink.writeHeader code := by
  cases w <;> rfl

theorem respondWithCache_fst (hl : Bool) (w : CWriter) (rc : responseCache) :
    (respondWithCache hl w rc).1 =
      ((applyHeaderSets (w.writeHeader rc.Status) rc.Header).write rc.Data).1 := by
  simp [respondWithCache]

theorem respondWithCache_snd_forms (hl : Bool) (w : CWriter) (rc : responseCache) :
    (respondWithCache hl w rc).2 = [.abort] ∨
      (respondWithCache hl w rc).2 = [.log "write response error: %v", .abort] := by
  rw [respondWithCache]
  rcases ((applyHeaderSets (w.writeHeader rc.Status) rc.Header).write rc.Data) with ⟨w3, n, e⟩
  cases e with
  | none => left; rfl
  | some s => cases hl <;> simp

theorem respondWithCache_status (hl : Bool) (w : CWriter) (rc : responseCache) :
    (respondWithCache hl w rc).1.sink.status = rc.Status := by
  rw [respondWithCache_fst, CWriter.write_fst_sink, GinWriter.write_fst_status,
    applyHeaderSets_sink, CWriter.writeHeader_sink]
  rfl

theorem respondWithCache_written (hl : Bool) (w : CWriter) (rc : responseCache) :
    (respondWithCache hl w rc).1.sink.written = w.sink.written ++ rc.Data := by
  rw [respondWithCache_fst, CWriter.write_fst_sink, GinWriter.write_fst_written,
    applyHeaderSets_sink, CWriter.writeHeader_sink]
  rfl

theorem respondWithCache_header (hl : Bool) (w : CWriter) (rc : responseCache) :
    (respondWithCache hl w rc).1.sink.header = setAllHeaders w.sink.header rc.Header := by
  rw [respondWithCache_fst, CWriter.write_fst_sink, GinWriter.write_fst_header,
    applyHeaderSets_sink, CWriter.writeHeader_sink]
  rfl

theorem cacheRun_bypass (opts : Options) (env : ReqEnv) (sink : GinWriter)
    (h : env.needCache = false) :
    cacheRun opts env sink = (runHandler env.handlerOps (.raw sink), [.next]) := by
  simp [cacheRun, h]

theorem cacheRun_hit (opts : Options) (env : ReqEnv) (sink : GinWriter) (rc : responseCache)
    (h : env.needCache = true) (hg : env.getResult = .hit rc) :
    cacheRun opts env sink =
      ((respondWithCache opts.hasLogger (.raw sink) rc).1,
        [.poolGet, .storeGet env.cacheKey]
          ++ (respondWithCache opts.hasLogger (.raw sink) rc).2 ++ [.poolPut]) := by
  simp [cacheRun, h, hg]

theorem cacheRun_not_hit (opts : Options) (env : ReqEnv) (sink : GinWriter)
    (h : env.needCache = true) (hg : ∀ rc, env.getResult ≠ .hit rc) :
    cacheRun opts env sink =
      ((missWritePath opts env (responseCacheWriter.reset sink)).1,
        [.poolGet, .storeGet env.cacheKey] ++ getLogEffs opts.hasLogger env.getResult
          ++ [.freshAlloc] ++ (missWritePath opts env (responseCacheWriter.reset sink)).2.2
          ++ [.storeSet env.cacheKey
                (responseCache.fill (missWritePath opts env (responseCacheWriter.reset sink)).2.1)
                opts.cacheDuration]
          ++ setLogEffs opts.hasLogger env.setError ++ [.poolPut]) := by
  cases hgr : env.getResult with
  | hit rc => exact absurd hgr (hg rc)
  | miss => simp [cacheRun, h, hgr]
  | err => simp [cacheRun, h, hgr]

theorem missWritePath_disabled (opts : Options) (env : ReqEnv) (cw : responseCacheWriter)
    (h : opts.disableSingleFlight = true) :
    missWritePath opts env cw =
      (.wrapped (runHandlerW env.handlerOps cw), runHandlerW env.handlerOps cw, [.next]) := by
  simp [missWritePath, h, runHandler_wrapped]

theorem missWritePath_leader (opts : Options) (env : ReqEnv) (cw : responseCacheWriter)
    (hd : opts.disableSingleFlight = false) (hr : env.role = .leader) :
    missWritePath opts env cw =
      (.wrapped (runHandlerW env.handlerOps cw), runHandlerW env.handlerOps cw,
        [.sfDo env.cacheKey]
          ++ (if 0 < opts.singleflightForgetTime then
                [.forgetSpawn env.cacheKey opts.singleflightForgetTime] else [])
          ++ [.next]) := by
  simp [missWritePath, hd, hr, runHandler_wrapped]

theorem missWritePath_follower (opts : Options) (env : ReqEnv) (cw lw : responseCacheWriter)
    (hd : opts.disableSingleFlight = false) (hr : env.role = .follower lw) :
    missWritePath opts env cw =
      ((respondWithCache opts.hasLogger (.wrapped cw) (responseCache.fill lw)).1, lw,
        [.sfDo env.cacheKey]
          ++ (respondWithCache opts.hasLogger (.wrapped cw) (responseCache.fill lw)).2) := by
  simp [missWritePath, hd, hr]

theorem countE_eq_zero (t : List Effect) (x : Effect) (h : x ∉ t) : countE t x = 0 := by
  rw [countE, List.length_eq_zero, List.filter_eq_nil_iff]
  intro e he
  simp only [decide_eq_true_eq]
  intro hex
  exact h (hex ▸ he)

theorem countSet_eq_zero (t : List Effect)
    (h : ∀ e ∈ t, ∀ k v ttl, e ≠ .storeSet k v ttl) : countSet t = 0 := by
  rw [countSet, List.length_eq_zero, List.filter_eq_nil_iff]
  intro e he
  cases e <;> simp
  case storeSet k v ttl => exact (h _ he k v ttl rfl).elim

theorem missWritePath_env_congr (opts : Options) (env : ReqEnv) (g : GetResult)
    (se : Option String) (cw : responseCacheWriter) :
    missWritePath opts { env with getResult := g, setError := se } cw
      = missWritePath opts env cw := by
  cases hd : opts.disableSingleFlight
  · cases hr : env.role <;> simp [missWritePath, hd, hr]
  · simp [missWritePath, hd]

theorem setLogEffs_mem (hl : Bool) (se : Option String) :
    ∀ e ∈ setLogEffs hl se, e = .log "set cache error: %v" := by
  cases se <;> cases hl <;> simp [setLogEffs]

theorem respond_mem (hl : Bool) (w : CWriter) (rc : responseCache) :
    ∀ e ∈ (respondWithCache hl w rc).2,
      e = .abort ∨ e = .log "write response error: %v" := by
  intro e he
  rcases respondWithCache_snd_forms hl w rc with hf | hf <;> rw [hf] at he <;> simp at he
  · left; exact he
  · rcases he with h1 | h1
    · right; exact h1
    · left; exact h1

theorem wp_trace_mem (opts : Options) (env : ReqEnv) (cw : responseCacheWriter) :
    ∀ e ∈ (missWritePath opts env cw).2.2,
      e = .next ∨ e = .sfDo env.cacheKey
        ∨ e = .forgetSpawn env.cacheKey opts.singleflightForgetTime
        ∨ e = .abort ∨ e = .log "write response error: %v" := by
  intro e he
  cases hd : opts.disableSingleFlight
  · cases hr : env.role with
    | leader =>
        rw [missWritePath_leader opts env cw hd hr] at he
        by_cases hf : 0 < opts.singleflightForgetTime
        · simp [hf] at he
          rcases he with h1 | h1 | h1
          · right; left; exact h1
          · right; right; left; exact h1
          · left; exact h1
        · simp [hf] at he
          rcases he with h1 | h1
          · right; left; exact h1
          · left; exact h1
    | follower lw =>
        rw [missWritePath_follower opts env cw lw hd hr] at he
        simp at he
        rcases he with h1 | h1
        · right; left; exact h1
        · rcases respond_mem opts.hasLogger (.wrapped cw) (responseCache.fill lw) e h1 with h2 | h2
          · right; right; right; left; exact h2
          · right; right; right; right; exact h2
  · rw [missWritePath_disabled opts env cw hd] at he
    simp at he
    left; exact he

theorem respond_abort_mem (hl : Bool) (w : CWriter) (rc : responseCache) :
    Effect.abort ∈ (respondWithCache hl w rc).2 := by
  rcases respondWithCache_snd_forms hl w rc with hf | hf <;> rw [hf] <;> simp

theorem not_mem_trace_pieces (x : Effect) (A B C D E F G : List Effect)
    (hA : x ∉ A) (hB : x ∉ B) (hC : x ∉ C) (hD : x ∉ D) (hE : x ∉ E)
    (hF : x ∉ F) (hG : x ∉ G) :
    x ∉ A ++ B ++ C ++ D ++ E ++ F ++ G := by
  simp only [List.mem_append, not_or]
  exact ⟨⟨⟨⟨⟨⟨hA, hB⟩, hC⟩, hD⟩, hE⟩, hF⟩, hG⟩

theorem mem_trace_of_mem_wp (x : Effect) (A B C D E F G : List Effect) (hx : x ∈ D) :
    x ∈ A ++ B ++ C ++ D ++ E ++ F ++ G := by
  simp only [List.mem_append]
  exact Or.inl (Or.inl (Or.inl (Or.inr hx)))

theorem getLogEffs_mem (hl : Bool) (g : GetResult) :
    ∀ e ∈ getLogEffs hl g, e = .log "get cache: %v" := by
  cases g <;> cases hl <;> simp [getLogEffs]

theorem wp_not_mem (opts : Options) (env : ReqEnv) (cw : responseCacheWriter) (x : Effect)
    (h1 : x ≠ .next) (h2 : ∀ k, x ≠ .sfDo k) (h3 : ∀ k t, x ≠ .forgetSpawn k t)
    (h4 : x ≠ .abort) (h5 : ∀ s, x ≠ .log s) :
    x ∉ (missWritePath opts env cw).2.2 := by
  intro hx
  rcases wp_trace_mem opts env cw _ hx with hh | hh | hh | hh | hh
  · exact h1 hh
  · exact h2 _ hh
  · exact h3 _ _ hh
  · exact h4 hh
  · exact h5 _ hh

theorem getLogEffs_not_mem (hl : Bool) (g : GetResult) (x : Effect)
    (h : ∀ s, x ≠ .log s) : x ∉ getLogEffs hl g := by
  intro hx
  exact h _ (getLogEffs_mem hl g _ hx)

theorem setLogEffs_not_mem (hl : Bool) (se : Option String) (x : Effect)
    (h : ∀ s, x ≠ .log s) : x ∉ setLogEffs hl se := by
  intro hx
  exact h _ (setLogEffs_mem hl se _ hx)

theorem respond_not_mem (hl : Bool) (w : CWriter) (rc : responseCache) (x : Effect)
    (h4 : x ≠ .abort) (h5 : ∀ s, x ≠ .log s) :
    x ∉ (respondWithCache hl w rc).2 := by
  intro hx
  rcases respond_mem hl w rc _ hx with hh | hh
  · exact h4 hh
  · exact h5 _ hh

/-! ## Claims -/

/-- C10: every byte sequence written through `responseCacheWriter.Write`
(and every string through `WriteString`) is appended to the internal buffer
and forwarded to the wrapped sink, and the call returns the underlying
sink's count and error; after any sequence of writes the buffer equals the
concatenation of all written chunks, even when the underlying sink reported
errors. -/
theorem C10_capture_write_buffers_and_forwards :
    (∀ (w : responseCacheWriter) (b : Bytes),
        (w.write b).1.body = w.body ++ b ∧
        (w.write b).1.underlying = (w.underlying.write b).1 ∧
        (w.write b).2 = (w.underlying.write b).2 ∧
        (w.writeString b).1.body = w.body ++ b ∧
        (w.writeString b).1.underlying = (w.underlying.write b).1 ∧
        (w.writeString b).2 = (w.underlying.write b).2) ∧
    (∀ (chunks : List (Bool × Bytes)) (w : responseCacheWriter),
        (rcwWriteAll w chunks).body = w.body ++ (chunks.map Prod.snd).flatten) := by
  constructor
  · intro w b
    refine ⟨?_, ?_, ?_, ?_, ?_, ?_⟩ <;>
      simp [responseCacheWriter.write, responseCacheWriter.writeString]
  · intro chunks
    induction chunks with
    | nil => intro w; simp [rcwWriteAll]
    | cons c rest ih =>
        intro w
        have hstep : (if c.1 then (w.writeString c.2).1 else (w.write c.2).1).body
            = w.body ++ c.2 := by
          cases c.1 <;> simp [responseCacheWriter.write, responseCacheWriter.writeString]
        calc (rcwWriteAll w (c :: rest)).body
            = (rcwWriteAll (if c.1 then (w.writeString c.2).1 else (w.write c.2).1) rest).body :=
              rfl
          _ = (if c.1 then (w.writeString c.2).1 else (w.write c.2).1).body
                ++ (rest.map Prod.snd).flatten := ih _
          _ = w.body ++ ((c :: rest).map Prod.snd).flatten := by rw [hstep]; simp

/-- C7: when the key function reports `shouldCache = false`, the middleware
only invokes the next stage on the untouched raw sink: no pool, store,
coalescing or abort effect occurs and the response is exactly what the
downstream handler writes to the raw sink — identical to the absence of the
caching layer. -/
theorem C7_bypass_no_side_effects (opts : Options) (env : ReqEnv) (sink : GinWriter)
    (h : env.needCache = false) :
    cacheRun opts env sink = (runHandler env.handlerOps (.raw sink), [.next]) := by
  simp [cacheRun, h]

/-- C7 witness. -/
theorem C7_bypass_no_side_effects_witness :
    cacheRun exOpts { exLeaderEnv with needCache := false } exSink
      = (runHandler exOps (.raw exSink), [.next]) :=
  C7_bypass_no_side_effects exOpts { exLeaderEnv with needCache := false } exSink rfl

/-- C3: evaluation of the replay procedure at a snapshot whose header `H`
stores the two values `a` then `b`: the sink receives the stored status and
body, but because src/cache.go:216 calls `Header().Set` for each value, the
sink ends up with only the last value `b` — multiplicity is not preserved,
contrary to the claim (and to the spec's replay contract). -/
theorem C3_replay_collapses_multivalued_header :
    (respondWithCache false (.raw exSink)
        { Status := 200, Header := [("H", ["a", "b"])], Data := [7] }).1.sink.status = 200 ∧
    (respondWithCache false (.raw exSink)
        { Status := 200, Header := [("H", ["a", "b"])], Data := [7] }).1.sink.written = [7] ∧
    hGet (respondWithCache false (.raw exSink)
        { Status := 200, Header := [("H", ["a", "b"])], Data := [7] }).1.sink.header "H"
      = ["b"] ∧
    hGet (respondWithCache false (.raw exSink)
        { Status := 200, Header := [("H", ["a", "b"])], Data := [7] }).1.sink.header "H"
      ≠ ["a", "b"] := by
  refine ⟨by decide, by decide, by decide, by decide⟩

/-- C8: a store-lookup error other than the distinguished miss error is
served exactly as a miss (same final writer, same effects apart from one
`Printf` when a logger is configured and none when it is not), while the
distinguished miss error itself logs nothing — the miss run's trace never
contains the lookup-error log message. -/
theorem C8_get_error_logged_and_served_as_miss (opts : Options) (env : ReqEnv)
    (sink : GinWriter) (h : env.needCache = true) :
    (cacheRun opts { env with getResult := .err } sink).1
        = (cacheRun opts { env with getResult := .miss } sink).1 ∧
    (cacheRun opts { env with getResult := .err } sink).2
        = [.poolGet, .storeGet env.cacheKey]
            ++ (if opts.hasLogger then [.log "get cache: %v"] else [])
            ++ (cacheRun opts { env with getResult := .miss } sink).2.drop 2 ∧
    Effect.log "get cache: %v" ∉ (cacheRun opts { env with getResult := .miss } sink).2 := by
  have hner : ∀ rc, ({ env with getResult := GetResult.err } : ReqEnv).getResult ≠ .hit rc := by
    intro rc; simp
  have hnem : ∀ rc, ({ env with getResult := GetResult.miss } : ReqEnv).getResult ≠ .hit rc := by
    intro rc; simp
  have her := cacheRun_not_hit opts { env with getResult := .err } sink (by simpa using h) hner
  have hem := cacheRun_not_hit opts { env with getResult := .miss } sink (by simpa using h) hnem
  have hwp : missWritePath opts { env with getResult := GetResult.err } (responseCacheWriter.reset sink)
      = missWritePath opts { env with getResult := GetResult.miss } (responseCacheWriter.reset sink) := by
    have h1 := missWritePath_env_congr opts env GetResult.err env.setError (responseCacheWriter.reset sink)
    have h2 := missWritePath_env_congr opts env GetResult.miss env.setError (responseCacheWriter.reset sink)
    simp only [show ({ env with getResult := GetResult.err, setError := env.setError } : ReqEnv)
        = { env with getResult := GetResult.err } from rfl] at h1
    simp only [show ({ env with getResult := GetResult.miss, setError := env.setError } : ReqEnv)
        = { env with getResult := GetResult.miss } from rfl] at h2
    rw [h1, h2]
  refine ⟨?_, ?_, ?_⟩
  · rw [her, hem]
    simp [hwp]
  · rw [her, hem]
    simp only [hwp]
    simp [getLogEffs]
  · rw [hem]
    have hD : Effect.log "get cache: %v" ∉
        (missWritePath opts { env with getResult := GetResult.miss }
          (responseCacheWriter.reset sink)).2.2 := by
      intro hx
      rcases wp_trace_mem opts { env with getResult := GetResult.miss }
          (responseCacheWriter.reset sink) _ hx with h2 | h2 | h2 | h2 | h2
      · exact Effect.noConfusion h2
      · exact Effect.noConfusion h2
      · exact Effect.noConfusion h2
      · exact Effect.noConfusion h2
      · exact absurd h2 (by decide)
    have hF : Effect.log "get cache: %v" ∉ setLogEffs opts.hasLogger env.setError := by
      intro hx
      exact absurd (setLogEffs_mem opts.hasLogger env.setError _ hx) (by decide)
    simp only [List.mem_append, not_or]
    refine ⟨⟨⟨⟨⟨⟨?_, ?_⟩, ?_⟩, hD⟩, ?_⟩, hF⟩, ?_⟩ <;> simp [getLogEffs]

/-- C8 witness. -/
theorem C8_get_error_logged_and_served_as_miss_witness :
    (cacheRun exOpts { exLeaderEnv with getResult := .err } exSink).1
        = (cacheRun exOpts { exLeaderEnv with getResult := .miss } exSink).1 ∧
    (cacheRun exOpts { exLeaderEnv with getResult := .err } exSink).2
        = [.poolGet, .storeGet exLeaderEnv.cacheKey]
            ++ (if exOpts.hasLogger then [.log "get cache: %v"] else [])
            ++ (cacheRun exOpts { exLeaderEnv with getResult := .miss } exSink).2.drop 2 ∧
    Effect.log "get cache: %v"
        ∉ (cacheRun exOpts { exLeaderEnv with getResult := .miss } exSink).2 :=
  C8_get_error_logged_and_served_as_miss exOpts exLeaderEnv exSink rfl

/-- C6: on the coalesced write path, the caller replays the snapshot to its
own sink exactly when its `shared` flag is set: the leader (shared false)
runs the handler (`next` in its trace) and never calls `respondWithCache`
(no `abort` in its trace); a follower (shared true) never runs the handler,
and replays the leader's captured status and body bytes to its own sink and
aborts. -/
theorem C6_replay_iff_shared (opts : Options) (env : ReqEnv) (sink : GinWriter)
    (h : env.needCache = true) (hg : env.getResult = .miss)
    (hd : opts.disableSingleFlight = false) :
    (env.role = .leader →
        Effect.abort ∉ (cacheRun opts env sink).2 ∧
        Effect.next ∈ (cacheRun opts env sink).2) ∧
    (∀ lw, env.role = .follower lw →
        Effect.abort ∈ (cacheRun opts env sink).2 ∧
        Effect.next ∉ (cacheRun opts env sink).2 ∧
        (cacheRun opts env sink).1.sink.written = sink.written ++ lw.body ∧
        (cacheRun opts env sink).1.sink.status = lw.underlying.status) := by
  have hg' : ∀ rc, env.getResult ≠ .hit rc := by
    intro rc hc
    rw [hg] at hc
    exact GetResult.noConfusion hc
  rw [cacheRun_not_hit opts env sink h hg']
  constructor
  · intro hr
    rw [missWritePath_leader opts env (responseCacheWriter.reset sink) hd hr]
    constructor
    · refine not_mem_trace_pieces _ _ _ _ _ _ _ _ (by simp) (by simp [hg, getLogEffs])
        (by simp) ?_ (by simp) ?_ (by simp)
      · by_cases hf : 0 < opts.singleflightForgetTime <;> simp [hf]
      · intro hx
        exact absurd (setLogEffs_mem opts.hasLogger env.setError _ hx) (by decide)
    · exact mem_trace_of_mem_wp _ _ _ _ _ _ _ _ (by simp)
  · intro lw hr
    rw [missWritePath_follower opts env (responseCacheWriter.reset sink) lw hd hr]
    refine ⟨?_, ?_, ?_, ?_⟩
    · refine mem_trace_of_mem_wp _ _ _ _ _ _ _ _ ?_
      simp only [List.mem_append]
      exact Or.inr (respond_abort_mem opts.hasLogger
        (.wrapped (responseCacheWriter.reset sink)) (responseCache.fill lw))
    · refine not_mem_trace_pieces _ _ _ _ _ _ _ _ (by simp) (by simp [hg, getLogEffs])
        (by simp) ?_ (by simp) ?_ (by simp)
      · simp only [List.mem_append, not_or]
        refine ⟨by simp, ?_⟩
        intro hx
        rcases respond_mem opts.hasLogger (.wrapped (responseCacheWriter.reset sink))
            (responseCache.fill lw) _ hx with h2 | h2 <;> exact Effect.noConfusion h2
      · intro hx
        exact absurd (setLogEffs_mem opts.hasLogger env.setError _ hx) (by decide)
    · rw [respondWithCache_written]
      rfl
    · rw [respondWithCache_status]
      rfl

/-- C6 witness. -/
theorem C6_replay_iff_shared_witness :
    (exLeaderEnv.role = .leader →
        Effect.abort ∉ (cacheRun exOpts exLeaderEnv exSink).2 ∧
        Effect.next ∈ (cacheRun exOpts exLeaderEnv exSink).2) ∧
    (∀ lw, exLeaderEnv.role = .follower lw →
        Effect.abort ∈ (cacheRun exOpts exLeaderEnv exSink).2 ∧
        Effect.next ∉ (cacheRun exOpts exLeaderEnv exSink).2 ∧
        (cacheRun exOpts exLeaderEnv exSink).1.sink.written = exSink.written ++ lw.body ∧
        (cacheRun exOpts exLeaderEnv exSink).1.sink.status = lw.underlying.status) :=
  C6_replay_iff_shared exOpts exLeaderEnv exSink rfl rfl rfl

/-- C4 (amended): on every request that consults the cache, exactly one
snapshot is taken from the pool and exactly one is returned to it — the
lookup snapshot, acquired just before `CacheStore.Get` (the trace starts
`poolGet, storeGet`) and released as the very last step on every exit path
(the deferred put).  The write-path snapshot, by contrast, is freshly
allocated on each non-hit request (one `freshAlloc`, zero on hits) and is
never handed back to the pool (the put count stays one). -/
theorem C4_only_lookup_snapshot_pooled (opts : Options) (env : ReqEnv) (sink : GinWriter)
    (h : env.needCache = true) :
    countE (cacheRun opts env sink).2 .poolGet = 1 ∧
    countE (cacheRun opts env sink).2 .poolPut = 1 ∧
    (cacheRun opts env sink).2.take 2 = [.poolGet, .storeGet env.cacheKey] ∧
    (cacheRun opts env sink).2.getLast? = some .poolPut ∧
    countE (cacheRun opts env sink).2 .freshAlloc
      = (match env.getResult with | .hit _ => 0 | _ => 1) := by
  cases hgr : env.getResult with
  | hit rc =>
      rw [cacheRun_hit opts env sink rc h hgr]
      have hrm : ∀ x : Effect, x ≠ .abort → (∀ s, x ≠ .log s) →
          countE (respondWithCache opts.hasLogger (.raw sink) rc).2 x = 0 := by
        intro x hx1 hx2
        exact countE_eq_zero _ _ (respond_not_mem opts.hasLogger (.raw sink) rc x hx1 hx2)
      refine ⟨?_, ?_, ?_, ?_, ?_⟩
      · simp only [countE_append]
        rw [hrm Effect.poolGet (by decide) (fun s => by simp)]
        simp [countE]
      · simp only [countE_append]
        rw [hrm Effect.poolPut (by decide) (fun s => by simp)]
        simp [countE]
      · simp
      · rw [List.getLast?_concat]
      · simp only [countE_append]
        rw [hrm Effect.freshAlloc (by decide) (fun s => by simp)]
        simp [countE]
  | miss =>
      have hg' : ∀ rc, env.getResult ≠ .hit rc := by intro rc hc; rw [hgr] at hc; exact GetResult.noConfusion hc
      rw [cacheRun_not_hit opts env sink h hg', hgr]
      have hwp : ∀ x : Effect, x ≠ .next → (∀ k, x ≠ .sfDo k) → (∀ k t, x ≠ .forgetSpawn k t) →
          x ≠ .abort → (∀ s, x ≠ .log s) →
          countE (missWritePath opts env (responseCacheWriter.reset sink)).2.2 x = 0 := by
        intro x hx1 hx2 hx3 hx4 hx5
        exact countE_eq_zero _ _ (wp_not_mem opts env _ x hx1 hx2 hx3 hx4 hx5)
      have hsl : ∀ x : Effect, (∀ s, x ≠ .log s) →
          countE (setLogEffs opts.hasLogger env.setError) x = 0 := by
        intro x hx
        exact countE_eq_zero _ _ (setLogEffs_not_mem opts.hasLogger env.setError x hx)
      refine ⟨?_, ?_, ?_, ?_, ?_⟩
      · simp only [countE_append]
        rw [hwp Effect.poolGet (by decide) (fun k => by simp) (fun k t => by simp) (by decide)
            (fun s => by simp),
          hsl Effect.poolGet (fun s => by simp)]
        simp [countE, getLogEffs]
      · simp only [countE_append]
        rw [hwp Effect.poolPut (by decide) (fun k => by simp) (fun k t => by simp) (by decide)
            (fun s => by simp),
          hsl Effect.poolPut (fun s => by simp)]
        simp [countE, getLogEffs]
      · simp
      · rw [List.getLast?_concat]
      · simp only [countE_append]
        rw [hwp Effect.freshAlloc (by decide) (fun k => by simp) (fun k t => by simp) (by decide)
            (fun s => by simp),
          hsl Effect.freshAlloc (fun s => by simp)]
        simp [countE, getLogEffs]
  | err =>
      have hg' : ∀ rc, env.getResult ≠ .hit rc := by intro rc hc; rw [hgr] at hc; exact GetResult.noConfusion hc
      rw [cacheRun_not_hit opts env sink h hg', hgr]
      have hwp : ∀ x : Effect, x ≠ .next → (∀ k, x ≠ .sfDo k) → (∀ k t, x ≠ .forgetSpawn k t) →
          x ≠ .abort → (∀ s, x ≠ .log s) →
          countE (missWritePath opts env (responseCacheWriter.reset sink)).2.2 x = 0 := by
        intro x hx1 hx2 hx3 hx4 hx5
        exact countE_eq_zero _ _ (wp_not_mem opts env _ x hx1 hx2 hx3 hx4 hx5)
      have hsl : ∀ x : Effect, (∀ s, x ≠ .log s) →
          countE (setLogEffs opts.hasLogger env.setError) x = 0 := by
        intro x hx
        exact countE_eq_zero _ _ (setLogEffs_not_mem opts.hasLogger env.setError x hx)
      have hgl : ∀ x : Effect, (∀ s, x ≠ .log s) →
          countE (getLogEffs opts.hasLogger GetResult.err) x = 0 := by
        intro x hx
        exact countE_eq_zero _ _ (getLogEffs_not_mem opts.hasLogger GetResult.err x hx)
      refine ⟨?_, ?_, ?_, ?_, ?_⟩
      · simp only [countE_append]
        rw [hwp Effect.poolGet (by decide) (fun k => by simp) (fun k t => by simp) (by decide)
            (fun s => by simp),
          hsl Effect.poolGet (fun s => by simp), hgl Effect.poolGet (fun s => by simp)]
        simp [countE]
      · simp only [countE_append]
        rw [hwp Effect.poolPut (by decide) (fun k => by simp) (fun k t => by simp) (by decide)
            (fun s => by simp),
          hsl Effect.poolPut (fun s => by simp), hgl Effect.poolPut (fun s => by simp)]
        simp [countE]
      · simp
      · rw [List.getLast?_concat]
      · simp only [countE_append]
        rw [hwp Effect.freshAlloc (by decide) (fun k => by simp) (fun k t => by simp) (by decide)
            (fun s => by simp),
          hsl Effect.freshAlloc (fun s => by simp), hgl Effect.freshAlloc (fun s => by simp)]
        simp [countE]

/-- C4 witness. -/
theorem C4_only_lookup_snapshot_pooled_witness :
    countE (cacheRun exOpts exLeaderEnv exSink).2 .poolGet = 1 ∧
    countE (cacheRun exOpts exLeaderEnv exSink).2 .poolPut = 1 ∧
    (cacheRun exOpts exLeaderEnv exSink).2.take 2 = [.poolGet, .storeGet exLeaderEnv.cacheKey] ∧
    (cacheRun exOpts exLeaderEnv exSink).2.getLast? = some .poolPut ∧
    countE (cacheRun exOpts exLeaderEnv exSink).2 .freshAlloc
      = (match exLeaderEnv.getResult with | .hit _ => 0 | _ => 1) :=
  C4_only_lookup_snapshot_pooled exOpts exLeaderEnv exSink rfl

/-- C4 counterexample: on a concrete miss request, two snapshots are
acquired (one from the pool for the lookup, one freshly allocated at
src/cache.go:75 for the write path) but only one is ever returned to the
pool — the write-path snapshot is never released, so not every snapshot
used during the request cycle goes back to the `SnapshotPool`. -/
theorem C4_write_snapshot_never_pooled :
    countAcquire exLeaderOut.2 = 2 ∧ countE exLeaderOut.2 .poolPut = 1 ∧
    ¬(countAcquire exLeaderOut.2 = countE exLeaderOut.2 .poolPut) := by
  refine ⟨by decide, by decide, by decide⟩

/-- C5 (amended): on a cache hit the middleware replies immediately with the
stored status and body, each stored header name is set to its **last**
stored value only (the replay loop uses `Header().Set`, so the stored
multiset is not reproduced for multi-valued headers), the downstream
handler is never invoked, no store write happens, and `c.Abort` runs even
when the body write to the client fails (the statement holds for every
sink, in particular sinks whose write errors). -/
theorem C5_hit_replies_and_aborts (opts : Options) (env : ReqEnv) (sink : GinWriter)
    (rc : responseCache) (h : env.needCache = true) (hg : env.getResult = .hit rc) :
    (cacheRun opts env sink).1.sink.status = rc.Status ∧
    (cacheRun opts env sink).1.sink.written = sink.written ++ rc.Data ∧
    (∀ k vs v, (k, vs) ∈ rc.Header → (rc.Header.map Prod.fst).Nodup →
        vs.getLast? = some v → hGet (cacheRun opts env sink).1.sink.header k = [v]) ∧
    Effect.next ∉ (cacheRun opts env sink).2 ∧
    Effect.abort ∈ (cacheRun opts env sink).2 ∧
    countSet (cacheRun opts env sink).2 = 0 := by
  rw [cacheRun_hit opts env sink rc h hg]
  refine ⟨?_, ?_, ?_, ?_, ?_, ?_⟩
  · exact respondWithCache_status opts.hasLogger (.raw sink) rc
  · exact respondWithCache_written opts.hasLogger (.raw sink) rc
  · intro k vs v hmem hnd hlast
    rw [respondWithCache_header]
    exact hGet_setAllHeaders_last rc.Header _ k vs v hmem hnd hlast
  · simp only [List.mem_append, not_or]
    refine ⟨⟨by simp, ?_⟩, by simp⟩
    exact respond_not_mem opts.hasLogger (.raw sink) rc _ (by decide) (fun s => by simp)
  · simp only [List.mem_append]
    exact Or.inl (Or.inr (respond_abort_mem opts.hasLogger (.raw sink) rc))
  · simp only [countSet_append]
    have hz : countSet (respondWithCache opts.hasLogger (.raw sink) rc).2 = 0 := by
      apply countSet_eq_zero
      intro e he k' v' t' hne
      rcases respond_mem opts.hasLogger (.raw sink) rc _ he with h2 | h2 <;>
        (rw [h2] at hne; exact Effect.noConfusion hne)
    rw [hz]
    simp [countSet]

/-- C5 witness (at a sink whose body write fails: the abort still occurs). -/
theorem C5_hit_replies_and_aborts_witness :
    (cacheRun exOpts exHitEnv exFailSink).1.sink.status = exStored.Status ∧
    (cacheRun exOpts exHitEnv exFailSink).1.sink.written = exFailSink.written ++ exStored.Data ∧
    (∀ k vs v, (k, vs) ∈ exStored.Header → (exStored.Header.map Prod.fst).Nodup →
        vs.getLast? = some v → hGet (cacheRun exOpts exHitEnv exFailSink).1.sink.header k = [v]) ∧
    Effect.next ∉ (cacheRun exOpts exHitEnv exFailSink).2 ∧
    Effect.abort ∈ (cacheRun exOpts exHitEnv exFailSink).2 ∧
    countSet (cacheRun exOpts exHitEnv exFailSink).2 = 0 :=
  C5_hit_replies_and_aborts exOpts exHitEnv exFailSink exStored rfl rfl

/-- C5 counterexample: the stored snapshot carries header `H` with the two
values `a, b`, but the client sink after the hit reply carries only `["b"]`
— the response is not the stored header multiset. -/
theorem C5_hit_header_multiset_not_preserved :
    hGet (cacheRun exOpts exHitEnv exSink).1.sink.header "H" = ["b"] ∧
    hGet exStored.Header "H" = ["a", "b"] ∧
    hGet (cacheRun exOpts exHitEnv exSink).1.sink.header "H" ≠ hGet exStored.Header "H" := by
  refine ⟨by decide, by decide, by decide⟩

/-- C2 (amended): `CacheStore.Set` is called exactly once per middleware
invocation that reaches the write path — by the leader **and by every
follower** (the `Set` at src/cache.go:104 is unconditional), so a group of
N coalesced callers issues N `Set` calls, all with the same key and, for a
follower, with the snapshot filled from the leader's capture. -/
theorem C2_set_called_once_per_caller (opts : Options) (env : ReqEnv) (sink : GinWriter)
    (h : env.needCache = true) (hg : ∀ rc, env.getResult ≠ .hit rc) :
    countSet (cacheRun opts env sink).2 = 1 ∧
    (∀ lw, env.role = .follower lw → opts.disableSingleFlight = false →
        Effect.storeSet env.cacheKey (responseCache.fill lw) opts.cacheDuration
          ∈ (cacheRun opts env sink).2) := by
  rw [cacheRun_not_hit opts env sink h hg]
  constructor
  · simp only [countSet_append]
    have hzB : countSet (getLogEffs opts.hasLogger env.getResult) = 0 := by
      apply countSet_eq_zero
      intro e he k' v' t' hne
      rw [getLogEffs_mem opts.hasLogger env.getResult _ he] at hne
      exact Effect.noConfusion hne
    have hzD : countSet (missWritePath opts env (responseCacheWriter.reset sink)).2.2 = 0 := by
      apply countSet_eq_zero
      intro e he k' v' t' hne
      rcases wp_trace_mem opts env (responseCacheWriter.reset sink) _ he with
        h2 | h2 | h2 | h2 | h2 <;> (rw [h2] at hne; exact Effect.noConfusion hne)
    have hzF : countSet (setLogEffs opts.hasLogger env.setError) = 0 := by
      apply countSet_eq_zero
      intro e he k' v' t' hne
      rw [setLogEffs_mem opts.hasLogger env.setError _ he] at hne
      exact Effect.noConfusion hne
    rw [hzB, hzD, hzF]
    simp [countSet]
  · intro lw hr hd
    rw [missWritePath_follower opts env (responseCacheWriter.reset sink) lw hd hr]
    simp only [List.mem_append]
    exact Or.inl (Or.inl (Or.inr (by simp)))

/-- C2 witness. -/
theorem C2_set_called_once_per_caller_witness :
    countSet (cacheRun exOpts exFollowerEnv exSink).2 = 1 ∧
    (∀ lw, exFollowerEnv.role = .follower lw → exOpts.disableSingleFlight = false →
        Effect.storeSet exFollowerEnv.cacheKey (responseCache.fill lw) exOpts.cacheDuration
          ∈ (cacheRun exOpts exFollowerEnv exSink).2) :=
  C2_set_called_once_per_caller exOpts exFollowerEnv exSink rfl
    (fun rc hc => by simp [exFollowerEnv, exLeaderEnv] at hc)

/-- C2 counterexample: a leader and one coalesced follower of the same key
amount to a single physical handler execution (the group model starts one
execution for two arrivals), yet `CacheStore.Set` is called twice — once by
each caller — so `Set` is not called exactly once per physical handler
execution. -/
theorem C2_followers_also_write_store :
    countSet exLeaderOut.2 + countSet exFollowerOut.2 = 2 ∧
    (sfRun [.arrive 0, .arrive 1, .finish 0]).nextExec = 1 ∧
    countSet exLeaderOut.2 + countSet exFollowerOut.2
      ≠ (sfRun [.arrive 0, .arrive 1, .finish 0]).nextExec := by
  refine ⟨by decide, by decide, by decide⟩

theorem sfRun_slot_arrivals (is : List Nat) (s : SfState) (e : Nat) (h : s.slot = some e) :
    (is.map SfEvent.arrive).foldl sfStep s
      = { nextExec := s.nextExec, slot := some e,
          assign := s.assign ++ is.map (fun i => (i, e)) } := by
  induction is generalizing s with
  | nil => cases s; simp_all
  | cons i rest ih =>
      have hstep : sfStep s (SfEvent.arrive i) = { s with assign := s.assign ++ [(i, e)] } := by
        simp [sfStep, h]
      calc (((i :: rest).map SfEvent.arrive).foldl sfStep s)
          = (rest.map SfEvent.arrive).foldl sfStep (sfStep s (SfEvent.arrive i)) := rfl
        _ = _ := by
            rw [hstep, ih { s with assign := s.assign ++ [(i, e)] } h]
            simp

/-- All concurrent arrivals at one key (no completion or forget in
between) share the very first execution: one producer run, and every
caller is assigned the same result. -/
theorem sfRun_arrivals_once (callers : List Nat) (hne : callers ≠ []) :
    (sfRun (callers.map SfEvent.arrive)).nextExec = 1 ∧
    ∀ p ∈ (sfRun (callers.map SfEvent.arrive)).assign, p.2 = 0 := by
  cases callers with
  | nil => exact absurd rfl hne
  | cons c rest =>
      have h1 : sfRun ((c :: rest).map SfEvent.arrive)
          = (rest.map SfEvent.arrive).foldl sfStep
              { nextExec := 1, slot := some 0, assign := [(c, 0)] } := rfl
      rw [h1, sfRun_slot_arrivals rest _ 0 rfl]
      refine ⟨rfl, ?_⟩
      intro p hp
      simp at hp
      rcases hp with h | h
      · rw [h]
      · obtain ⟨i, hi, hpe⟩ := h
        rw [← hpe]

/-- C1 (amended): with coalescing enabled, any number of callers arriving
at one key while the first is in flight trigger exactly one handler
execution and are all assigned the identical result value (the leader's
`responseCacheWriter`); the leader's client and each follower's client
receive the same status code and the same body bytes (the leader live via
dual-write, the follower via replay), and the handler runs once across the
pair.  (The original claim's "byte-identical headers" part is refuted
separately: follower headers are collapsed by `Header().Set`.) -/
theorem C1_coalescing_once_same_status_and_body (opts : Options) (k : String)
    (ops : List HandlerOp) (se : Option String) (sink1 sink2 : GinWriter)
    (hd : opts.disableSingleFlight = false)
    (h1 : sink1.written = []) (h2 : sink2.written = [])
    (callers : List Nat) (hlen : 2 ≤ callers.length) :
    ((sfRun (callers.map SfEvent.arrive)).nextExec = 1 ∧
      ∀ p ∈ (sfRun (callers.map SfEvent.arrive)).assign, p.2 = 0) ∧
    (∀ lw, (cacheRun opts ⟨k, true, .miss, se, ops, .leader⟩ sink1).1 = .wrapped lw →
        (cacheRun opts ⟨k, true, .miss, se, ops, .leader⟩ sink1).1.sink.written = lw.body ∧
        (cacheRun opts ⟨k, true, .miss, se, ops, .follower lw⟩ sink2).1.sink.written = lw.body ∧
        (cacheRun opts ⟨k, true, .miss, se, ops, .follower lw⟩ sink2).1.sink.status
          = (cacheRun opts ⟨k, true, .miss, se, ops, .leader⟩ sink1).1.sink.status ∧
        countE (cacheRun opts ⟨k, true, .miss, se, ops, .leader⟩ sink1).2 .next
          + countE (cacheRun opts ⟨k, true, .miss, se, ops, .follower lw⟩ sink2).2 .next
          = 1) := by
  have hne : callers ≠ [] := by
    intro hc
    rw [hc] at hlen
    exact absurd hlen (by decide)
  refine ⟨sfRun_arrivals_once callers hne, ?_⟩
  intro lw hlw
  have hgL : ∀ rc, (⟨k, true, .miss, se, ops, .leader⟩ : ReqEnv).getResult ≠ .hit rc := by
    intro rc hc
    exact GetResult.noConfusion hc
  have hgF : ∀ rc, (⟨k, true, .miss, se, ops, .follower lw⟩ : ReqEnv).getResult ≠ .hit rc := by
    intro rc hc
    exact GetResult.noConfusion hc
  have hL := cacheRun_not_hit opts ⟨k, true, .miss, se, ops, .leader⟩ sink1 rfl hgL
  have hF := cacheRun_not_hit opts ⟨k, true, .miss, se, ops, .follower lw⟩ sink2 rfl hgF
  have hwL := missWritePath_leader opts ⟨k, true, .miss, se, ops, .leader⟩
    (responseCacheWriter.reset sink1) hd rfl
  have hwF := missWritePath_follower opts ⟨k, true, .miss, se, ops, .follower lw⟩
    (responseCacheWriter.reset sink2) lw hd rfl
  -- identify the leader's writer
  have hlw2 : lw = runHandlerW ops (responseCacheWriter.reset sink1) := by
    rw [hL, hwL] at hlw
    exact (CWriter.wrapped.injEq _ _).mp hlw.symm
  have hdual := runHandlerW_dual ops (responseCacheWriter.reset sink1)
  obtain ⟨d, hb, hw⟩ := hdual
  have hlwbody : lw.body = d := by rw [hlw2, hb]; rfl
  have hlwwritten : lw.underlying.written = d := by
    rw [hlw2, hw]
    simp [responseCacheWriter.reset, h1]
  refine ⟨?_, ?_, ?_, ?_⟩
  · rw [hL, hwL]
    show (runHandlerW ops (responseCacheWriter.reset sink1)).underlying.written = lw.body
    rw [← hlw2, hlwwritten, hlwbody]
  · rw [hF, hwF, respondWithCache_written]
    show sink2.written ++ (responseCache.fill lw).Data = lw.body
    rw [h2]
    rfl
  · rw [hF, hwF, respondWithCache_status, hL, hwL]
    show (responseCache.fill lw).Status = (runHandlerW ops (responseCacheWriter.reset sink1)).underlying.status
    rw [← hlw2]
    rfl
  · rw [hL, hwL, hF, hwF]
    simp only [countE_append]
    have hzB : countE (getLogEffs opts.hasLogger GetResult.miss) Effect.next = 0 := rfl
    have hzF2 : ∀ se2, countE (setLogEffs opts.hasLogger se2) Effect.next = 0 := by
      intro se2
      exact countE_eq_zero _ _ (setLogEffs_not_mem opts.hasLogger se2 _ (fun s => by simp))
    have hzR : countE (respondWithCache opts.hasLogger
        (.wrapped (responseCacheWriter.reset sink2)) (responseCache.fill lw)).2 Effect.next = 0 :=
      countE_eq_zero _ _ (respond_not_mem _ _ _ _ (by decide) (fun s => by simp))
    have hzSpawn : countE (if 0 < opts.singleflightForgetTime then
        [Effect.forgetSpawn k opts.singleflightForgetTime] else []) Effect.next = 0 := by
      by_cases hf : 0 < opts.singleflightForgetTime <;> simp [hf, countE]
    rw [hzB, hzF2, hzR, hzSpawn]
    simp [countE]

/-- C1 witness. -/
theorem C1_coalescing_once_same_status_and_body_witness :
    ((sfRun ([0, 1].map SfEvent.arrive)).nextExec = 1 ∧
      ∀ p ∈ (sfRun ([0, 1].map SfEvent.arrive)).assign, p.2 = 0) ∧
    (∀ lw, (cacheRun exOpts ⟨"k", true, .miss, none, exOps, .leader⟩ exSink).1 = .wrapped lw →
        (cacheRun exOpts ⟨"k", true, .miss, none, exOps, .leader⟩ exSink).1.sink.written = lw.body ∧
        (cacheRun exOpts ⟨"k", true, .miss, none, exOps, .follower lw⟩ exSink).1.sink.written
          = lw.body ∧
        (cacheRun exOpts ⟨"k", true, .miss, none, exOps, .follower lw⟩ exSink).1.sink.status
          = (cacheRun exOpts ⟨"k", true, .miss, none, exOps, .leader⟩ exSink).1.sink.status ∧
        countE (cacheRun exOpts ⟨"k", true, .miss, none, exOps, .leader⟩ exSink).2 .next
          + countE (cacheRun exOpts ⟨"k", true, .miss, none, exOps, .follower lw⟩ exSink).2 .next
          = 1) :=
  C1_coalescing_once_same_status_and_body exOpts "k" exOps none exSink exSink rfl rfl rfl
    [0, 1] (by decide)

/-- C1 counterexample: in the concrete coalesced pair, the leader's client
ends with header `H = [a, b]` (written live by the handler) while the
follower's client ends with `H = [b]` (replayed via `Header().Set`), so the
N callers do **not** receive byte-identical headers. -/
theorem C1_follower_headers_not_byte_identical :
    exLeaderOut.1.sink.header = [("H", ["a", "b"])] ∧
    exFollowerOut.1.sink.header = [("H", ["b"])] ∧
    exLeaderOut.1.sink.header ≠ exFollowerOut.1.sink.header := by
  refine ⟨by decide, by decide, by decide⟩

/-- C9: when a positive forget duration is configured, the leader's
producer spawns the forget-timer goroutine (and does not when the duration
is zero); in the group model, once the forget event fires while execution 0
is still in flight, a newly arriving caller starts a **new** execution
(invocation count rises to 2) instead of joining execution 0, the original
execution finishing afterwards neither loses its caller's assignment nor
disturbs the new slot (no cancellation) — whereas without the forget event
the second caller would have joined execution 0. -/
theorem C9_forget_timer_new_leader (opts : Options) (env : ReqEnv) (sink : GinWriter)
    (h : env.needCache = true) (hg : env.getResult = .miss)
    (hd : opts.disableSingleFlight = false) (hr : env.role = .leader) :
    (Effect.forgetSpawn env.cacheKey opts.singleflightForgetTime ∈ (cacheRun opts env sink).2
        ↔ 0 < opts.singleflightForgetTime) ∧
    sfRun [.arrive 1, .forget, .arrive 2]
      = { nextExec := 2, slot := some 1, assign := [(1, 0), (2, 1)] } ∧
    sfRun [.arrive 1, .forget, .arrive 2, .finish 0]
      = { nextExec := 2, slot := some 1, assign := [(1, 0), (2, 1)] } ∧
    sfRun [.arrive 1, .arrive 2]
      = { nextExec := 1, slot := some 0, assign := [(1, 0), (2, 0)] } := by
  have hg' : ∀ rc, env.getResult ≠ .hit rc := by
    intro rc hc
    rw [hg] at hc
    exact GetResult.noConfusion hc
  rw [cacheRun_not_hit opts env sink h hg',
    missWritePath_leader opts env (responseCacheWriter.reset sink) hd hr]
  refine ⟨?_, by decide, by decide, by decide⟩
  by_cases hf : 0 < opts.singleflightForgetTime
  · constructor
    · intro _
      exact hf
    · intro _
      refine mem_trace_of_mem_wp _ _ _ _ _ _ _ _ ?_
      simp [hf]
  · constructor
    · intro hmem
      exact absurd (by
        revert hmem
        refine fun hmem => absurd hmem (not_mem_trace_pieces _ _ _ _ _ _ _ _ (by simp)
          (by simp [hg, getLogEffs]) (by simp) (by simp [hf]) (by simp)
          (setLogEffs_not_mem _ _ _ (fun s => by simp)) (by simp))) (fun hc => hc)
    · intro hpos
      exact absurd hpos hf

/-- C9 witness. -/
theorem C9_forget_timer_new_leader_witness :
    (Effect.forgetSpawn exLeaderEnv.cacheKey exOptsForget.singleflightForgetTime
        ∈ (cacheRun exOptsForget exLeaderEnv exSink).2
      ↔ 0 < exOptsForget.singleflightForgetTime) ∧
    sfRun [.arrive 1, .forget, .arrive 2]
      = { nextExec := 2, slot := some 1, assign := [(1, 0), (2, 1)] } ∧
    sfRun [.arrive 1, .forget, .arrive 2, .finish 0]
      = { nextExec := 2, slot := some 1, assign := [(1, 0), (2, 1)] } ∧
    sfRun [.arrive 1, .arrive 2]
      = { nextExec := 1, slot := some 0, assign := [(1, 0), (2, 0)] } :=
  C9_forget_timer_new_leader exOptsForget exLeaderEnv exSink rfl rfl rfl rfl

end GinCache
